import Mathlib

/-!
Shallow embedding of the Mr.Logger core (makredzic/Mr.Logger) used to check
the natural-language specification against the code.

Conventions of the embedding:
* C++ machine integers are modelled as `Nat`, with an explicit `% 65536`
  where a `uint16_t` conversion can actually truncate.
* Byte strings (`char` arrays, `std::string` payloads) are modelled as
  `List Char`.  The textual renderings that the `fmt` library produces for
  a `std::chrono` timestamp and a `std::thread::id` are not part of this
  repository, so a `WriteRequest` carries those renderings directly as
  strings; the exact format string of `WritePreparer::formatTo` is embedded
  verbatim around them.
* Stateful components (`WritePreparer`, the queues, `FileRotater`) become
  explicit state records with pure transition functions.
-/

namespace MrLogger

/-! ## Severity levels (include/MR/Logger/SeverityLevel.hpp) -/

inductive SEVERITY_LEVEL where
  | INFO
  | WARN
  | ERROR
deriving DecidableEq, Repr

/-- `sevLvlToStr` from SeverityLevel.hpp (the `default` branch is
unreachable for the three-value enum). -/
def sevLvlToStr : SEVERITY_LEVEL → List Char
  | .INFO => "INFO".data
  | .WARN => "WARN".data
  | .ERROR => "ERROR".data

/-! ## WriteRequest (include/MR/Logger/WriteRequest.hpp)

`threadId` and `timestamp` are carried as their `fmt`-rendered text, since
the rendering itself is done by the external `fmt` library. -/

structure WriteRequest where
  level : SEVERITY_LEVEL
  data : List Char
  threadId : List Char
  timestamp : List Char
deriving DecidableEq, Repr

/-- The exact single-record format of `WritePreparer::formatTo`
(non-sequence-tracking build):
`[<timestamp>] [<LEVEL>] [Thread: <tid>]: <payload>\n`. -/
def fmtMsg (r : WriteRequest) : List Char :=
  ('[' :: r.timestamp) ++ "] [".data ++ sevLvlToStr r.level
    ++ "] [Thread: ".data ++ r.threadId ++ "]: ".data ++ r.data ++ ['\n']

/-! ## Buffer & BufferPool (include/MR/Memory/*, src/Memory/Pool.cpp)

A `Buffer` owns `capacity` bytes of which the first `size` are in use.
`content` records the bytes the embedded code actually wrote into the
buffer (a prefix of the allocation); the C++ `size` field is tracked
separately because the code can set it independently of what was written. -/

structure Buffer where
  content : List Char
  size : Nat
  capacity : Nat
deriving DecidableEq, Repr

def SMALL_BUFFER_SIZE : Nat := 1024
def MEDIUM_BUFFER_SIZE : Nat := 4096
def LARGE_BUFFER_SIZE : Nat := 16384
def SMALL_POOL_SIZE : Nat := 128
def MEDIUM_POOL_SIZE : Nat := 64
def LARGE_POOL_SIZE : Nat := 32

/-- Capacity of the buffer handed out by `BufferPool::acquire(n)` when the
matching size-class pool is not exhausted: the band capacity for the three
size classes, or an exact oversize allocation. -/
def acquireCapacity (n : Nat) : Nat :=
  if n ≤ SMALL_BUFFER_SIZE then SMALL_BUFFER_SIZE
  else if n ≤ MEDIUM_BUFFER_SIZE then MEDIUM_BUFFER_SIZE
  else if n ≤ LARGE_BUFFER_SIZE then LARGE_BUFFER_SIZE
  else n

/-- One `Pool` (include/MR/Memory/Pool.hpp): its two construction
parameters are all the claims need. -/
structure Pool where
  pool_size : Nat
  buffer_size : Nat
deriving DecidableEq, Repr

structure BufferPool where
  small_pool : Pool
  medium_pool : Pool
  large_pool : Pool
deriving DecidableEq, Repr

/-- `BufferPool::BufferPool()` (src/Memory/BufferPool.cpp): the only
constructor; it uses the compile-time `*_POOL_SIZE` / `*_BUFFER_SIZE`
constants. -/
def mkBufferPool : BufferPool :=
  { small_pool := { pool_size := SMALL_POOL_SIZE, buffer_size := SMALL_BUFFER_SIZE }
    medium_pool := { pool_size := MEDIUM_POOL_SIZE, buffer_size := MEDIUM_BUFFER_SIZE }
    large_pool := { pool_size := LARGE_POOL_SIZE, buffer_size := LARGE_BUFFER_SIZE } }

/-! ## Config (include/MR/Logger/Config.hpp) and the merge
(src/Logger/Logger.cpp, Logger::mergeWithDefault).

`uint16_t` fields hold values below 65536; `internal_error_handler` and
`_queue` matter to the claims only through being set or not. -/

structure Config where
  internal_error_handler_set : Bool := false
  log_file_name : String := ""
  max_log_size_bytes : Nat := 0
  batch_size : Nat := 0
  queue_depth : Nat := 0
  small_buffer_pool_size : Nat := 0
  medium_buffer_pool_size : Nat := 0
  large_buffer_pool_size : Nat := 0
  small_buffer_size : Nat := 0
  medium_buffer_size : Nat := 0
  large_buffer_size : Nat := 0
  shutdown_timeout_seconds : Nat := 0
  queue_set : Bool := false
  coalesce_size : Nat := 0
deriving DecidableEq, Repr

/-- `Logger::default_config_` (include/MR/Logger/Logger.hpp). -/
def default_config : Config :=
  { internal_error_handler_set := true
    log_file_name := "output.log"
    max_log_size_bytes := 5 * 1024 * 1024
    batch_size := 32
    queue_depth := 512
    small_buffer_pool_size := 512
    medium_buffer_pool_size := 256
    large_buffer_pool_size := 128
    small_buffer_size := 1024
    medium_buffer_size := 4096
    large_buffer_size := 16384
    shutdown_timeout_seconds := 3
    queue_set := true
    coalesce_size := 32 }

/-- `Logger::mergeWithDefault` (src/Logger/Logger.cpp:26-95).  Every
zero/empty field inherits the default; afterwards, if the user set
`batch_size` but not `queue_depth`, `queue_depth := batch_size * 16`
(the product of a `uint16_t` and 16 stored back into a `uint16_t`, hence
reduced mod 65536), and if the user set `batch_size` but not
`coalesce_size`, `coalesce_size := batch_size`. -/
def mergeWithDefault (user : Config) : Config :=
  let merged : Config :=
    { internal_error_handler_set :=
        if user.internal_error_handler_set = false
        then default_config.internal_error_handler_set
        else user.internal_error_handler_set
      log_file_name :=
        if user.log_file_name = "" then default_config.log_file_name
        else user.log_file_name
      max_log_size_bytes :=
        if user.max_log_size_bytes = 0 then default_config.max_log_size_bytes
        else user.max_log_size_bytes
      batch_size :=
        if user.batch_size = 0 then default_config.batch_size
        else user.batch_size
      queue_depth :=
        if user.queue_depth = 0 then default_config.queue_depth
        else user.queue_depth
      small_buffer_pool_size :=
        if user.small_buffer_pool_size = 0 then default_config.small_buffer_pool_size
        else user.small_buffer_pool_size
      medium_buffer_pool_size :=
        if user.medium_buffer_pool_size = 0 then default_config.medium_buffer_pool_size
        else user.medium_buffer_pool_size
      large_buffer_pool_size :=
        if user.large_buffer_pool_size = 0 then default_config.large_buffer_pool_size
        else user.large_buffer_pool_size
      small_buffer_size :=
        if user.small_buffer_size = 0 then default_config.small_buffer_size
        else user.small_buffer_size
      medium_buffer_size :=
        if user.medium_buffer_size = 0 then default_config.medium_buffer_size
        else user.medium_buffer_size
      large_buffer_size :=
        if user.large_buffer_size = 0 then default_config.large_buffer_size
        else user.large_buffer_size
      shutdown_timeout_seconds :=
        if user.shutdown_timeout_seconds = 0 then default_config.shutdown_timeout_seconds
        else user.shutdown_timeout_seconds
      queue_set :=
        if user.queue_set = false then default_config.queue_set
        else user.queue_set
      coalesce_size :=
        if user.coalesce_size = 0 then default_config.coalesce_size
        else user.coalesce_size }
  let user_specified_batch_size := user.batch_size ≠ 0
  let user_specified_queue_depth := user.queue_depth ≠ 0
  let user_specified_coalesce_size := user.coalesce_size ≠ 0
  if user_specified_batch_size then
    let m1 :=
      if user_specified_queue_depth then merged
      else { merged with queue_depth := merged.batch_size * 16 % 65536 }
    if user_specified_coalesce_size then m1
    else { m1 with coalesce_size := m1.batch_size }
  else merged

/-- `Logger`'s `buffer_pool_` member (include/MR/Logger/Logger.hpp:135) is
default-constructed: its construction does not consult the merged config. -/
def loggerBufferPool (_config : Config) : BufferPool := mkBufferPool

/-! ## Logger construction-time validation (src/Logger/Logger.cpp:124-161)

The constructor first throws `std::invalid_argument` when
`batch_size > queue_depth`, and otherwise only reports warnings through the
error callback.  The fourth warning compares the (floating-point derived)
`max_logs_per_iteration_` member against `2 * batch_size`; that member is
taken here as an unconstrained input.  The two `double` comparisons of the
coalesce ratio are written as their exact rational equivalents
(`c / b < 0.5` iff `2c < b` and `c / b > 2.0` iff `c > 2b`; with
`b, c < 65536` the rounding of the IEEE-754 division cannot flip these
strict comparisons because the nearest ratios to the decision points are
at distance at least `1 / (2 * 65535^2)`). -/

def validateLogger (c : Config) (max_logs_per_iteration : Nat) :
    Except String (List String) :=
  if c.queue_depth < c.batch_size then
    .error "batch_size cannot exceed queue_depth"
  else
    let w1 := if c.queue_depth / 2 < c.batch_size
      then ["batch_size is more than half of queue_depth"] else []
    let w2 := if c.queue_depth < c.batch_size * 8
      then ["queue_depth is less than 8x batch_size"] else []
    let w3 := if 0 < c.coalesce_size ∧
        (2 * c.coalesce_size < c.batch_size ∨ 2 * c.batch_size < c.coalesce_size)
      then ["coalesce_size differs significantly from batch_size"] else []
    let w4 := if max_logs_per_iteration < c.batch_size * 2
      then ["max_logs_per_iteration is less than 2x batch_size"] else []
    .ok (w1 ++ w2 ++ w3 ++ w4)

/-- `Logger::Factory::init` (src/Logger/Logger.cpp:355-360) installs the
instance only when the `Logger` constructor returns, i.e. only when
validation did not throw. -/
def installedSink (user : Config) (max_logs_per_iteration : Nat) :
    Option Config :=
  match validateLogger (mergeWithDefault user) max_logs_per_iteration with
  | .error _ => none
  | .ok _ => some (mergeWithDefault user)

/-! ## FileRotater (include/MR/IO/FileRotater.hpp, src/Logger/Logger.cpp
FileRotater section) -/

/-- `std::string::find_last_of(c)`: index of the last occurrence of `c`,
`none` when absent. -/
def findLastOf (c : Char) : List Char → Option Nat
  | [] => none
  | x :: xs =>
    match findLastOf c xs with
    | some j => some (j + 1)
    | none => if x = c then some 0 else none

/-- `FileRotater::extractBaseAndExtension`: split at the last `'.'`
provided it is not the first character; otherwise the whole name is the
base and the extension is empty. -/
def extractBaseAndExtension (filename : List Char) : List Char × List Char :=
  match findLastOf '.' filename with
  | some dot_pos =>
    if 0 < dot_pos then (filename.take dot_pos, filename.drop dot_pos)
    else (filename, [])
  | none => (filename, [])

/-- The extension as the spec's words describe it: the longest suffix that
starts with `'.'` and does not contain a path separator, empty when no
such suffix exists.  (Definition follows the specification, for comparison
with `extractBaseAndExtension`.) -/
def specExtension (filename : List Char) : List Char :=
  match (List.range filename.length).find? (fun i =>
      decide ((filename.drop i).head? = some '.')
        && !((filename.drop i).contains '/')) with
  | some i => filename.drop i
  | none => []

structure FileRotaterState where
  base_name : List Char
  extension : List Char
  max_size_bytes : Nat
  current_size : Nat
deriving DecidableEq, Repr

/-- `FileRotater::FileRotater(filename, max_size_bytes)`. -/
def mkFileRotater (filename : List Char) (max_size_bytes : Nat) :
    FileRotaterState :=
  let (b, e) := extractBaseAndExtension filename
  { base_name := b, extension := e
    max_size_bytes := max_size_bytes, current_size := 0 }

/-- `FileRotater::shouldRotate`: `current_size_ >= max_size_bytes_`. -/
def shouldRotate (r : FileRotaterState) : Bool :=
  r.max_size_bytes ≤ r.current_size

/-- `FileRotater::updateCurrentSize`. -/
def updateCurrentSize (r : FileRotaterState) (bytes_written : Nat) :
    FileRotaterState :=
  { r with current_size := r.current_size + bytes_written }

/-- `FileRotater::getCurrentFilename` returns a *function-local static*
string, initialised from `base_name_ + extension_` of whichever instance
performs the first call in the process and returned unchanged ever after.
The static is modelled as an explicit process-wide cache threaded through
the call. -/
def getCurrentFilename (cache : Option (List Char)) (r : FileRotaterState) :
    List Char × Option (List Char) :=
  match cache with
  | some s => (s, some s)
  | none =>
    let s := r.base_name ++ r.extension
    (s, some s)

/-! ## WritePreparer (include/MR/IO/WritePreparer.hpp, shipped inside the
concatenated include/MR/IO/IOUring.hpp)

The staging area is a fixed `char[staging_buffer_size]` array, modelled as
a `List Char` of that length (zero-initialised, as `std::make_unique`
value-initialises it).  `formatTo` is `fmt::format_to_n(buffer,
capacity - 1, ...)`: it writes at most `capacity - 1` bytes (truncating),
appends a NUL terminator when the full untruncated size is below
`capacity`, and returns the *untruncated* size. -/

structure WPConfig where
  coalesce_size : Nat
  staging_buffer_size : Nat := 16384
deriving DecidableEq, Repr

structure WPState where
  staging : List Char
  staging_offset : Nat
  messages_in_staging : Nat
deriving DecidableEq, Repr

structure PreparedWrite where
  buffer : Option Buffer
  should_flush_batch : Bool
deriving DecidableEq, Repr

def initWPState (cfg : WPConfig) : WPState :=
  { staging := List.replicate cfg.staging_buffer_size (Char.ofNat 0)
    staging_offset := 0
    messages_in_staging := 0 }

/-- Overlay `src` onto `dst` starting at byte `pos` (a raw memory write
into the staging array; all uses keep `pos + src.length ≤ dst.length`). -/
def writeAt (dst : List Char) (pos : Nat) (src : List Char) : List Char :=
  dst.take pos ++ src ++ dst.drop (pos + src.length)

/-- The bytes `formatTo` actually deposits in a region of `capacity`
bytes: the rendered record truncated to `capacity - 1` bytes, followed by
a NUL byte when the untruncated size is below `capacity`.  (No call site
passes `capacity = 0`.)  Its return value is `(fmtMsg r).length`. -/
def formatToWritten (r : WriteRequest) (capacity : Nat) : List Char :=
  let rendered := fmtMsg r
  if rendered.length < capacity then rendered ++ [Char.ofNat 0]
  else rendered.take (capacity - 1)

/-- `WritePreparer::flushStaged`: nothing to do at offset 0; otherwise
copy the first `staging_offset` staged bytes into a pooled buffer of
matching size and reset the staging counters (the staging bytes
themselves are not cleared). -/
def flushStaged (s : WPState) : WPState × Option Buffer :=
  if s.staging_offset = 0 then (s, none)
  else
    let cap := acquireCapacity s.staging_offset
    let buf : Buffer :=
      { content := s.staging.take s.staging_offset
        size := s.staging_offset
        capacity := cap }
    ({ s with staging_offset := 0, messages_in_staging := 0 }, some buf)

/-- `WritePreparer::prepareIndividualWrite`: acquire a pooled buffer for
an estimated `payload + 256` bytes and format into it; the buffer's `size`
is set to `formatTo`'s return value, the untruncated formatted size. -/
def prepareIndividualWrite (r : WriteRequest) : PreparedWrite :=
  let estimated_size := r.data.length + 256
  let cap := acquireCapacity estimated_size
  let rendered := fmtMsg r
  let buf : Buffer :=
    { content :=
        if rendered.length < cap then rendered else rendered.take (cap - 1)
      size := rendered.length
      capacity := cap }
  { buffer := some buf, should_flush_batch := false }

/-- `WritePreparer::prepareCoalescedWrite`: format into the staging area;
on success advance the staging cursor and flush at the coalesce threshold
or above 90% occupancy; on overflow flush the staged bytes first, prepare
the record individually, and return the flushed buffer when one exists
(discarding the individual one) or the individual result otherwise. -/
def prepareCoalescedWrite (cfg : WPConfig) (s : WPState) (r : WriteRequest) :
    WPState × PreparedWrite :=
  let formatted_size := (fmtMsg r).length
  let written := formatToWritten r (cfg.staging_buffer_size - s.staging_offset)
  let s1 : WPState :=
    { s with staging := writeAt s.staging s.staging_offset written }
  if 0 < formatted_size ∧
      s.staging_offset + formatted_size ≤ cfg.staging_buffer_size then
    let s2 : WPState :=
      { s1 with staging_offset := s.staging_offset + formatted_size,
                messages_in_staging := s.messages_in_staging + 1 }
    let should_flush :=
      cfg.coalesce_size ≤ s2.messages_in_staging ∨
        cfg.staging_buffer_size * 9 / 10 < s2.staging_offset
    if should_flush ∧ 0 < s2.staging_offset then
      match flushStaged s2 with
      | (s3, some b) => (s3, { buffer := some b, should_flush_batch := true })
      | (_, none) => (s2, { buffer := none, should_flush_batch := false })
    else (s2, { buffer := none, should_flush_batch := false })
  else
    let (s3, flushed) := flushStaged s1
    let individual := prepareIndividualWrite r
    match flushed with
    | some b => (s3, { buffer := some b, should_flush_batch := true })
    | none => (s3, individual)

/-- `WritePreparer::prepareWrite`: coalesced when `coalesce_size > 1`,
individual otherwise. -/
def prepareWrite (cfg : WPConfig) (s : WPState) (r : WriteRequest) :
    WPState × PreparedWrite :=
  if 1 < cfg.coalesce_size then prepareCoalescedWrite cfg s r
  else (s, prepareIndividualWrite r)

/-- Feed a list of records through `prepareWrite`, collecting every buffer
the preparer hands back. -/
def runPrepare (cfg : WPConfig) : WPState → List WriteRequest →
    WPState × List Buffer
  | s, [] => (s, [])
  | s, r :: rs =>
    let (s1, pw) := prepareWrite cfg s r
    let (s2, bs) := runPrepare cfg s1 rs
    (s2, pw.buffer.toList ++ bs)

/-- A full run from the fresh preparer: all records through
`prepareWrite`, then a final `flushStaged` (as the event loop performs
each iteration). -/
def runOutputs (cfg : WPConfig) (reqs : List WriteRequest) : List Buffer :=
  (runPrepare cfg (initWPState cfg) reqs).2 ++
    ((flushStaged (runPrepare cfg (initWPState cfg) reqs).1).2).toList

/-! ## StdQueue (include/MR/Queue/StdQueue.hpp)

The mutex-protected `std::queue` plus stop flag becomes a list plus a
`Bool`.  `pop` blocks on the condition variable until
`!queue_.empty() || stop_`; the transition below models the body that runs
once that wait condition holds. -/

structure StdQueueState (α : Type) where
  queue : List α
  stop : Bool
deriving DecidableEq, Repr

/-- The predicate of `StdQueue::pop`'s `cv_.wait`: control proceeds only
once the queue is non-empty or shut down. -/
def stdWaitCond (s : StdQueueState α) : Prop :=
  s.queue ≠ [] ∨ s.stop = true

instance (s : StdQueueState α) : Decidable (stdWaitCond s) :=
  have : Decidable (s.queue ≠ []) :=
    decidable_of_iff (s.queue.isEmpty = false) (by cases h : s.queue <;> simp [h])
  by unfold stdWaitCond; exact instDecidableOr

/-- `StdQueue::pop` after the wait: empty means absent, otherwise the
front element is moved out. -/
def stdPop (s : StdQueueState α) : Option α × StdQueueState α :=
  match s.queue with
  | [] => (none, s)
  | x :: xs => (some x, { s with queue := xs })

/-- `StdQueue::push`: a no-op once stopped, otherwise enqueue at the
back. -/
def stdPush (s : StdQueueState α) (x : α) : StdQueueState α :=
  if s.stop then s else { s with queue := s.queue ++ [x] }

/-! ## FixedSizeBlockingQueue (the bounded ring variant)

`buffer_` is a `std::vector<T>` of length `capacity`; `head_`, `tail_`
and `count_` drive the ring.  Cells start default-constructed, modelled
through `Inhabited`. -/

structure FixedQueueState (α : Type) [Inhabited α] where
  buffer : List α
  head : Nat
  tail : Nat
  count : Nat
  capacity : Nat
  stop : Bool

def mkFixedQueue (α : Type) [Inhabited α] (capacity : Nat) :
    FixedQueueState α :=
  { buffer := List.replicate capacity default
    head := 0, tail := 0, count := 0, capacity := capacity, stop := false }

/-- The predicate of `FixedSizeBlockingQueue::pop`'s `cv_empty_.wait`. -/
def fixedPopWaitCond [Inhabited α] (s : FixedQueueState α) : Prop :=
  0 < s.count ∨ s.stop = true

instance [Inhabited α] (s : FixedQueueState α) :
    Decidable (fixedPopWaitCond s) := by
  unfold fixedPopWaitCond; infer_instance

/-- `FixedSizeBlockingQueue::pop` after the wait: absent at count 0,
otherwise take `buffer_[head_]` and advance `head_` modulo the
capacity. -/
def fixedPop [Inhabited α] (s : FixedQueueState α) :
    Option α × FixedQueueState α :=
  if s.count = 0 then (none, s)
  else
    (some (s.buffer.getD s.head default),
      { s with head := (s.head + 1) % s.capacity, count := s.count - 1 })

/-- The predicate of `FixedSizeBlockingQueue::push`'s `cv_full_.wait`. -/
def fixedPushWaitCond [Inhabited α] (s : FixedQueueState α) : Prop :=
  s.count < s.capacity ∨ s.stop = true

/-- `FixedSizeBlockingQueue::push` after the wait: a no-op once stopped,
otherwise store at `buffer_[tail_]` and advance `tail_` modulo the
capacity. -/
def fixedPush [Inhabited α] (s : FixedQueueState α) (x : α) :
    FixedQueueState α :=
  if s.stop then s
  else
    { s with buffer := s.buffer.set s.tail x,
             tail := (s.tail + 1) % s.capacity,
             count := s.count + 1 }

/-- FIFO abstraction of the ring: the `count` elements starting at `head`,
wrapping modulo `capacity`. -/
def ringList [Inhabited α] (s : FixedQueueState α) : List α :=
  (List.range s.count).map (fun i => s.buffer.getD ((s.head + i) % s.capacity) default)

/-! ## Derived state/buffer abbreviations used in the C1 analysis -/

/-- The pooled buffer `flushStaged` emits when bytes are staged. -/
def stagedBuffer (s : WPState) : Buffer :=
  { content := s.staging.take s.staging_offset
    size := s.staging_offset
    capacity := acquireCapacity s.staging_offset }

/-- The staging state after a record is successfully formatted into the
staging area (full write plus NUL terminator, cursor advanced by the
untruncated length, message count incremented). -/
def stagedAppend (s : WPState) (r : WriteRequest) : WPState :=
  { staging := writeAt s.staging s.staging_offset (fmtMsg r ++ [Char.ofNat 0])
    staging_offset := s.staging_offset + (fmtMsg r).length
    messages_in_staging := s.messages_in_staging + 1 }

/-- The staging state after `flushStaged` resets the cursor. -/
def stagedReset (s : WPState) : WPState :=
  { s with staging_offset := 0, messages_in_staging := 0 }

/-- The staging state after an *overflowing* record was formatted into
the remaining area: `formatTo` deposits a truncated prefix there, but the
cursor does not move. -/
def overflowScratch (s : WPState) (r : WriteRequest) (S : Nat) : WPState :=
  let scratch :=
    writeAt s.staging s.staging_offset
      ((fmtMsg r).take (S - s.staging_offset - 1))
  { s with staging := scratch }

/-! ## Run conditions for the coalescing no-loss analysis (C1) -/

/-- A record's full formatted line fits (with the NUL terminator) in the
buffer the individual path acquires for it, so nothing is truncated
there. -/
def fitsIndividually (r : WriteRequest) : Bool :=
  (fmtMsg r).length + 1 ≤ acquireCapacity (r.data.length + 256)

/-- The runs of `prepareCoalescedWrite` in which the code loses no bytes,
tracking the staging cursor and message count: each record either fits
strictly below the staging capacity (so its bytes land in full and an
exact fill — whose final byte the bounds check silently drops — never
occurs), or overflows an *empty* staging area and fits individually.
Records that overflow while bytes are staged are exactly the ones the
overflow path discards. -/
def goodRunAux (cfg : WPConfig) : Nat → Nat → List WriteRequest → Bool
  | _, _, [] => true
  | offset, msgs, r :: rs =>
    let len := (fmtMsg r).length
    if offset + len < cfg.staging_buffer_size then
      if cfg.coalesce_size ≤ msgs + 1 ∨
          cfg.staging_buffer_size * 9 / 10 < offset + len then
        goodRunAux cfg 0 0 rs
      else
        goodRunAux cfg (offset + len) (msgs + 1) rs
    else
      decide (offset = 0) && decide (cfg.staging_buffer_size < len) &&
        fitsIndividually r && goodRunAux cfg 0 msgs rs

/-! ## Concrete inputs used by individual claims -/

/-- The failing input for C3: a config that requests 7/9/11 pool slots
of sizes 2048/8192/32768. -/
def c3FailingConfig : Config :=
  { small_buffer_pool_size := 7
    medium_buffer_pool_size := 9
    large_buffer_pool_size := 11
    small_buffer_size := 2048
    medium_buffer_size := 8192
    large_buffer_size := 32768 }

/-- A minimal record (empty payload and empty rendered timestamp/thread
fields): its formatted line `[] [INFO] [Thread: ]: \n` is 23 bytes. -/
def smallReq : WriteRequest :=
  { level := .INFO, data := [], threadId := [], timestamp := [] }

/-- A record with a 20-byte payload: its formatted line is 43 bytes. -/
def midReq : WriteRequest :=
  { level := .INFO, data := List.replicate 20 'x', threadId := [], timestamp := [] }

/-- A record whose rendered thread-id text is 1002 bytes while its
payload is empty: the formatted line is 1025 bytes but the estimate
`payload + 256 = 256` acquires a 1024-byte small-class buffer. -/
def hugeTidReq : WriteRequest :=
  { level := .INFO, data := [], threadId := List.replicate 1002 't', timestamp := [] }

/-! # Theorems -/

/-! ## General facts about the embedding -/

theorem sevLvlToStr_length_pos (l : SEVERITY_LEVEL) :
    0 < (sevLvlToStr l).length := by
  cases l <;> decide

theorem fmtMsg_length (r : WriteRequest) :
    (fmtMsg r).length =
      r.timestamp.length + (sevLvlToStr r.level).length
        + r.threadId.length + r.data.length + 19 := by
  simp [fmtMsg]
  omega

theorem fmtMsg_length_pos (r : WriteRequest) : 0 < (fmtMsg r).length := by
  simp [fmtMsg]

/-- Every field of the merged config other than `queue_depth` and
`coalesce_size` is untouched by the auto-scaling step: projections through
the trailing conditionals. -/
theorem mergeWithDefault_max_log_size_bytes (u : Config) :
    (mergeWithDefault u).max_log_size_bytes =
      if u.max_log_size_bytes = 0 then default_config.max_log_size_bytes
      else u.max_log_size_bytes := by
  unfold mergeWithDefault
  by_cases hb : u.batch_size = 0 <;> by_cases hd : u.queue_depth = 0 <;>
    by_cases hc : u.coalesce_size = 0 <;> simp [hb, hd, hc]

theorem mergeWithDefault_batch_size (u : Config) :
    (mergeWithDefault u).batch_size =
      if u.batch_size = 0 then default_config.batch_size
      else u.batch_size := by
  unfold mergeWithDefault
  by_cases hb : u.batch_size = 0 <;> by_cases hd : u.queue_depth = 0 <;>
    by_cases hc : u.coalesce_size = 0 <;> simp [hb, hd, hc]

theorem mergeWithDefault_queue_depth_auto (u : Config)
    (hb : u.batch_size ≠ 0) (hd : u.queue_depth = 0) :
    (mergeWithDefault u).queue_depth = u.batch_size * 16 % 65536 := by
  unfold mergeWithDefault
  simp only [hb, hd]
  simp [hb]
  split <;> rfl

theorem mergeWithDefault_coalesce_auto (u : Config)
    (hb : u.batch_size ≠ 0) (hc : u.coalesce_size = 0) :
    (mergeWithDefault u).coalesce_size = u.batch_size := by
  unfold mergeWithDefault
  simp only [hb, hc]
  simp [hb]
  split <;> rfl

/-! ## Claim C2 -/

/-- C2 counterexample: the configuration `{max_log_size_bytes := 0}` does
*not* rotate on every write: the merge treats 0 as unset and substitutes
the 5 MiB default, and with the merged threshold `shouldRotate` is false
at the initial size 0, i.e. before the very first write. -/
theorem c2_counterexample :
    (mergeWithDefault { max_log_size_bytes := 0 }).max_log_size_bytes = 5242880 ∧
    shouldRotate
      (mkFileRotater "output.log".data
        (mergeWithDefault { max_log_size_bytes := 0 }).max_log_size_bytes)
      = false := by
  constructor
  · rfl
  · rfl

/-- C2 amended: `max_log_size_bytes = 0` means "unset" — the merge
replaces it by the default 5 MiB, so with such a merged threshold the
logger rotates only once `current_size` reaches 5 MiB.  A `FileRotater`
whose own `max_size_bytes` is 0 would indeed report `shouldRotate` on
every write, but the merge prevents a user zero from ever reaching it. -/
theorem c2_amended (u : Config) (r : FileRotaterState) (cur : Nat)
    (hu : u.max_log_size_bytes = 0) (hr : r.max_size_bytes = 0) :
    (mergeWithDefault u).max_log_size_bytes = 5242880 ∧
    (shouldRotate
        { base_name := [], extension := []
          max_size_bytes := (mergeWithDefault u).max_log_size_bytes
          current_size := cur } = true ↔ 5242880 ≤ cur) ∧
    shouldRotate r = true := by
  have hm : (mergeWithDefault u).max_log_size_bytes = 5242880 := by
    rw [mergeWithDefault_max_log_size_bytes, if_pos hu]; rfl
  refine ⟨hm, ?_, ?_⟩
  · simp [shouldRotate, hm]
  · simp [shouldRotate, hr]

theorem c2_amended_witness :
    ({ max_log_size_bytes := 0 } : Config).max_log_size_bytes = 0 ∧
    (mergeWithDefault { max_log_size_bytes := 0 }).max_log_size_bytes = 5242880 ∧
    (shouldRotate
        { base_name := [], extension := []
          max_size_bytes :=
            (mergeWithDefault { max_log_size_bytes := 0 }).max_log_size_bytes
          current_size := 0 } = true ↔ 5242880 ≤ 0) ∧
    shouldRotate { base_name := [], extension := []
                   max_size_bytes := 0, current_size := 7 } = true :=
  ⟨rfl, c2_amended { max_log_size_bytes := 0 }
    { base_name := [], extension := [], max_size_bytes := 0, current_size := 7 }
    0 rfl rfl⟩

/-! ## Claim C3 -/

/-- C3: evaluation at the failing input.  The requested pool slot counts
and size-class capacities survive the merge, yet the logger's
`BufferPool` member is built from the compile-time constants 128/64/32
and 1024/4096/16384 — the configured values are never used. -/
theorem c3_pool_config_ignored :
    (mergeWithDefault c3FailingConfig).small_buffer_pool_size = 7 ∧
    (mergeWithDefault c3FailingConfig).small_buffer_size = 2048 ∧
    loggerBufferPool (mergeWithDefault c3FailingConfig) =
      { small_pool := { pool_size := 128, buffer_size := 1024 }
        medium_pool := { pool_size := 64, buffer_size := 4096 }
        large_pool := { pool_size := 32, buffer_size := 16384 } } ∧
    (128 : Nat) ≠ 7 ∧ (1024 : Nat) ≠ 2048 := by
  refine ⟨rfl, rfl, rfl, by decide, by decide⟩

/-! ## Claim C5 -/

/-- C5 counterexample: for the user config `{batch_size := 4096}` (queue
depth unset) the auto-scale assignment `queue_depth := batch_size * 16`
truncates through `uint16_t`: the merged `queue_depth` is 0, not
`16 * 4096 = 65536`. -/
theorem c5_counterexample :
    (mergeWithDefault { batch_size := 4096 }).queue_depth = 0 ∧
    (16 : Nat) * 4096 = 65536 ∧ (0 : Nat) ≠ 65536 := by
  refine ⟨rfl, rfl, by decide⟩

/-- C5 amended: with `batch_size` specified and `queue_depth` unset the
merged `queue_depth` is `16 * batch_size` reduced modulo 65536 (the
`uint16_t` store), which equals `16 * batch_size` exactly when
`batch_size < 4096`; and with `coalesce_size` also unset the merged
`coalesce_size` equals `batch_size`. -/
theorem c5_amended (u : Config) (hb : u.batch_size ≠ 0)
    (hb16 : u.batch_size < 65536) (hd : u.queue_depth = 0) :
    (mergeWithDefault u).queue_depth = 16 * u.batch_size % 65536 ∧
    ((mergeWithDefault u).queue_depth = 16 * u.batch_size ↔ u.batch_size < 4096) ∧
    (u.coalesce_size = 0 → (mergeWithDefault u).coalesce_size = u.batch_size) := by
  have hq := mergeWithDefault_queue_depth_auto u hb hd
  rw [Nat.mul_comm] at hq
  refine ⟨hq, ?_, fun hc => mergeWithDefault_coalesce_auto u hb hc⟩
  rw [hq]
  omega

theorem c5_amended_witness :
    ({ batch_size := 24 } : Config).batch_size ≠ 0 ∧
    ({ batch_size := 24 } : Config).batch_size < 65536 ∧
    ({ batch_size := 24 } : Config).queue_depth = 0 ∧
    ((mergeWithDefault { batch_size := 24 }).queue_depth = 16 * 24 % 65536 ∧
      ((mergeWithDefault { batch_size := 24 }).queue_depth = 16 * 24 ↔
        (24 : Nat) < 4096) ∧
      (({ batch_size := 24 } : Config).coalesce_size = 0 →
        (mergeWithDefault { batch_size := 24 }).coalesce_size = 24)) :=
  ⟨by decide, by decide, rfl, c5_amended { batch_size := 24 }
    (by decide) (by decide) rfl⟩

/-! ## Claim C8 -/

/-- C8: after the merge, `batch_size > queue_depth` is the one hard
failure of logger construction — `validateLogger` returns the
`invalid_argument` error and `Factory::init` installs no instance; for
every other merged config validation succeeds (producing only warnings)
and the sink is installed. -/
theorem c8_hard_error_iff_batch_exceeds_depth (u : Config) (m : Nat) :
    ((mergeWithDefault u).queue_depth < (mergeWithDefault u).batch_size →
      validateLogger (mergeWithDefault u) m =
        .error "batch_size cannot exceed queue_depth" ∧
      installedSink u m = none) ∧
    ((mergeWithDefault u).batch_size ≤ (mergeWithDefault u).queue_depth →
      (∃ warns, validateLogger (mergeWithDefault u) m = .ok warns) ∧
      installedSink u m = some (mergeWithDefault u)) := by
  constructor
  · intro h
    have hv : validateLogger (mergeWithDefault u) m =
        .error "batch_size cannot exceed queue_depth" := by
      unfold validateLogger
      rw [if_pos h]
    exact ⟨hv, by unfold installedSink; rw [hv]⟩
  · intro h
    have hv : ∃ warns, validateLogger (mergeWithDefault u) m = .ok warns := by
      unfold validateLogger
      rw [if_neg (by omega)]
      exact ⟨_, rfl⟩
    obtain ⟨w, hw⟩ := hv
    exact ⟨⟨w, hw⟩, by unfold installedSink; rw [hw]⟩

theorem c8_witness :
    ((mergeWithDefault { batch_size := 64, queue_depth := 8 }).queue_depth <
      (mergeWithDefault { batch_size := 64, queue_depth := 8 }).batch_size) ∧
    validateLogger (mergeWithDefault { batch_size := 64, queue_depth := 8 }) 0 =
      .error "batch_size cannot exceed queue_depth" ∧
    installedSink { batch_size := 64, queue_depth := 8 } 0 = none :=
  ⟨by decide,
    (c8_hard_error_iff_batch_exceeds_depth { batch_size := 64, queue_depth := 8 } 0).1
      (by decide)⟩

/-! ## WritePreparer step lemmas (C1) -/

theorem formatToWritten_of_lt (r : WriteRequest) (cap : Nat)
    (h : (fmtMsg r).length < cap) :
    formatToWritten r cap = fmtMsg r ++ [Char.ofNat 0] := by
  unfold formatToWritten
  rw [if_pos h]

theorem formatToWritten_of_ge (r : WriteRequest) (cap : Nat)
    (h : ¬ (fmtMsg r).length < cap) :
    formatToWritten r cap = (fmtMsg r).take (cap - 1) := by
  unfold formatToWritten
  rw [if_neg h]

theorem writeAt_length (dst src : List Char) (pos : Nat)
    (h : pos + src.length ≤ dst.length) :
    (writeAt dst pos src).length = dst.length := by
  simp [writeAt]
  omega

theorem writeAt_take (dst src : List Char) (pos k : Nat)
    (hpos : pos ≤ dst.length) (hk : k ≤ src.length) :
    (writeAt dst pos src).take (pos + k) = dst.take pos ++ src.take k := by
  unfold writeAt
  rw [List.append_assoc]
  have hlen : (dst.take pos).length = pos := by
    rw [List.length_take]
    omega
  rw [List.take_append_eq_append_take, hlen]
  rw [List.take_of_length_le (by rw [hlen]; omega)]
  rw [Nat.add_sub_cancel_left]
  rw [List.take_append_of_le_length hk]

theorem flushStaged_zero (s : WPState) (h : s.staging_offset = 0) :
    flushStaged s = (s, none) := by
  unfold flushStaged
  rw [if_pos h]

theorem flushStaged_pos (s : WPState) (h : s.staging_offset ≠ 0) :
    flushStaged s = (stagedReset s, some (stagedBuffer s)) := by
  unfold flushStaged stagedReset stagedBuffer
  rw [if_neg h]

theorem stagedAppend_offset (s : WPState) (r : WriteRequest) :
    (stagedAppend s r).staging_offset
      = s.staging_offset + (fmtMsg r).length := rfl

/-- Successful staging without a flush. -/
theorem prepareCoalescedWrite_stage (cfg : WPConfig) (s : WPState)
    (r : WriteRequest)
    (hlt : s.staging_offset + (fmtMsg r).length < cfg.staging_buffer_size)
    (hnf : ¬ (cfg.coalesce_size ≤ s.messages_in_staging + 1 ∨
      cfg.staging_buffer_size * 9 / 10 <
        s.staging_offset + (fmtMsg r).length)) :
    prepareCoalescedWrite cfg s r =
      (stagedAppend s r, { buffer := none, should_flush_batch := false }) := by
  unfold prepareCoalescedWrite stagedAppend
  rw [formatToWritten_of_lt r _ (by omega)]
  rw [if_pos ⟨fmtMsg_length_pos r, by omega⟩]
  rw [if_neg]
  intro hcon
  exact hnf hcon.1

/-- Successful staging followed by the threshold flush. -/
theorem prepareCoalescedWrite_stage_flush (cfg : WPConfig) (s : WPState)
    (r : WriteRequest)
    (hlt : s.staging_offset + (fmtMsg r).length < cfg.staging_buffer_size)
    (hf : cfg.coalesce_size ≤ s.messages_in_staging + 1 ∨
      cfg.staging_buffer_size * 9 / 10 <
        s.staging_offset + (fmtMsg r).length) :
    prepareCoalescedWrite cfg s r =
      (stagedReset (stagedAppend s r),
       { buffer := some (stagedBuffer (stagedAppend s r))
         should_flush_batch := true }) := by
  have hpos : 0 < s.staging_offset + (fmtMsg r).length := by
    have := fmtMsg_length_pos r
    omega
  unfold prepareCoalescedWrite
  rw [formatToWritten_of_lt r _ (by omega)]
  rw [if_pos ⟨fmtMsg_length_pos r, by omega⟩]
  rw [if_pos ⟨hf, hpos⟩]
  have hflush := flushStaged_pos (stagedAppend s r)
    (by rw [stagedAppend_offset]; omega)
  unfold stagedAppend at hflush ⊢
  rw [hflush]

/-- Overflow of an empty staging area: the staged flush yields nothing
and the individually prepared record is returned. -/
theorem prepareCoalescedWrite_overflow_empty (cfg : WPConfig) (s : WPState)
    (r : WriteRequest) (hoff : s.staging_offset = 0)
    (hgt : cfg.staging_buffer_size < (fmtMsg r).length) :
    prepareCoalescedWrite cfg s r =
      (overflowScratch s r cfg.staging_buffer_size,
       prepareIndividualWrite r) := by
  unfold prepareCoalescedWrite overflowScratch
  rw [formatToWritten_of_ge r _ (by omega)]
  rw [if_neg (by omega)]
  rw [flushStaged_zero _ (by simpa using hoff)]

theorem runPrepare_cons (cfg : WPConfig) (s : WPState) (r : WriteRequest)
    (rs : List WriteRequest) :
    runPrepare cfg s (r :: rs) =
      ((runPrepare cfg (prepareWrite cfg s r).1 rs).1,
        (prepareWrite cfg s r).2.buffer.toList ++
          (runPrepare cfg (prepareWrite cfg s r).1 rs).2) := by
  rw [runPrepare]

/-! ## Claim C1 -/

/-- The inductive heart of the amended C1: on a run satisfying
`goodRunAux`, the bytes already staged plus the formatted bytes of all
incoming records are exactly the bytes of the emitted buffers plus the
bytes left staged afterwards; the staging array keeps its length and its
cursor stays in bounds. -/
theorem runPrepare_flatten (cfg : WPConfig) (h2 : 1 < cfg.coalesce_size)
    (reqs : List WriteRequest) :
    ∀ (s : WPState),
      s.staging.length = cfg.staging_buffer_size →
      s.staging_offset ≤ cfg.staging_buffer_size →
      goodRunAux cfg s.staging_offset s.messages_in_staging reqs = true →
      ((((runPrepare cfg s reqs).2.map Buffer.content).flatten ++
          (runPrepare cfg s reqs).1.staging.take
            (runPrepare cfg s reqs).1.staging_offset
        = s.staging.take s.staging_offset ++ (reqs.map fmtMsg).flatten) ∧
      (runPrepare cfg s reqs).1.staging.length = cfg.staging_buffer_size ∧
      (runPrepare cfg s reqs).1.staging_offset ≤ cfg.staging_buffer_size) := by
  induction reqs with
  | nil =>
    intro s hlen hoff _
    refine ⟨by simp [runPrepare], hlen, hoff⟩
  | cons r rs ih =>
    intro s hlen hoff hgood
    rw [goodRunAux] at hgood
    have hpw0 : prepareWrite cfg s r = prepareCoalescedWrite cfg s r := by
      unfold prepareWrite
      rw [if_pos h2]
    by_cases hlt : s.staging_offset + (fmtMsg r).length < cfg.staging_buffer_size
    · rw [if_pos hlt] at hgood
      have hA : (stagedAppend s r).staging.take (stagedAppend s r).staging_offset
          = s.staging.take s.staging_offset ++ fmtMsg r := by
        show (writeAt s.staging s.staging_offset (fmtMsg r ++ [Char.ofNat 0])).take
            (s.staging_offset + (fmtMsg r).length) = _
        rw [writeAt_take _ _ _ _ (by omega) (by simp)]
        rw [List.take_append_of_le_length (by simp), List.take_length]
      have hAlen : (stagedAppend s r).staging.length = cfg.staging_buffer_size := by
        show (writeAt s.staging s.staging_offset (fmtMsg r ++ [Char.ofNat 0])).length = _
        rw [writeAt_length _ _ _ (by simp; omega)]
        exact hlen
      by_cases hf : cfg.coalesce_size ≤ s.messages_in_staging + 1 ∨
          cfg.staging_buffer_size * 9 / 10 < s.staging_offset + (fmtMsg r).length
      · -- stage, then flush at the threshold
        rw [if_pos hf] at hgood
        have hpw : prepareWrite cfg s r =
            (stagedReset (stagedAppend s r),
             { buffer := some (stagedBuffer (stagedAppend s r))
               should_flush_batch := true }) :=
          hpw0.trans (prepareCoalescedWrite_stage_flush cfg s r hlt hf)
        obtain ⟨ihq, ihlen, ihoff⟩ := ih (stagedReset (stagedAppend s r))
          (by show (stagedAppend s r).staging.length = _; exact hAlen)
          (Nat.zero_le _)
          (by show goodRunAux cfg 0 0 rs = true; exact hgood)
        rw [runPrepare_cons, hpw]
        dsimp only
        refine ⟨?_, ihlen, ihoff⟩
        simp only [Option.toList_some, List.singleton_append, List.map_cons,
          List.flatten_cons, List.append_assoc]
        rw [ihq]
        simp only [stagedBuffer, stagedReset]
        rw [hA]
        simp [List.append_assoc]
      · -- stage only
        rw [if_neg hf] at hgood
        have hpw : prepareWrite cfg s r =
            (stagedAppend s r, { buffer := none, should_flush_batch := false }) :=
          hpw0.trans (prepareCoalescedWrite_stage cfg s r hlt hf)
        obtain ⟨ihq, ihlen, ihoff⟩ := ih (stagedAppend s r) hAlen
          (by rw [stagedAppend_offset]; omega)
          (by show goodRunAux cfg (s.staging_offset + (fmtMsg r).length)
                (s.messages_in_staging + 1) rs = true
              exact hgood)
        rw [runPrepare_cons, hpw]
        dsimp only
        refine ⟨?_, ihlen, ihoff⟩
        simp only [Option.toList_none, List.nil_append]
        rw [ihq, hA]
        simp [List.append_assoc]
    · -- overflow path; goodness forces empty staging and individual fit
      rw [if_neg hlt] at hgood
      simp only [Bool.and_eq_true, decide_eq_true_eq] at hgood
      obtain ⟨⟨⟨hoff0, hgt⟩, hfit⟩, hrest⟩ := hgood
      have hfitlt : (fmtMsg r).length < acquireCapacity (r.data.length + 256) := by
        unfold fitsIndividually at hfit
        simp at hfit
        omega
      have hindiv : prepareIndividualWrite r =
          { buffer := some
              { content := fmtMsg r
                size := (fmtMsg r).length
                capacity := acquireCapacity (r.data.length + 256) }
            should_flush_batch := false } := by
        simp only [prepareIndividualWrite]
        rw [if_pos hfitlt]
      have hpw : prepareWrite cfg s r =
          (overflowScratch s r cfg.staging_buffer_size,
           prepareIndividualWrite r) :=
        hpw0.trans (prepareCoalescedWrite_overflow_empty cfg s r hoff0 hgt)
      rw [hindiv] at hpw
      have h1len : (overflowScratch s r cfg.staging_buffer_size).staging.length
          = cfg.staging_buffer_size := by
        simp only [overflowScratch]
        rw [writeAt_length]
        · exact hlen
        · rw [List.length_take]
          omega
      obtain ⟨ihq, ihlen, ihoff⟩ := ih
        (overflowScratch s r cfg.staging_buffer_size)
        h1len
        (by show s.staging_offset ≤ _; omega)
        (by show goodRunAux cfg s.staging_offset s.messages_in_staging rs = true
            rw [hoff0]
            exact hrest)
      rw [runPrepare_cons, hpw]
      dsimp only
      refine ⟨?_, ihlen, ihoff⟩
      simp only [Option.toList_some, List.singleton_append, List.map_cons,
        List.flatten_cons, List.append_assoc]
      rw [ihq]
      simp [overflowScratch, hoff0, List.append_assoc]

/-- C1 amended: with coalescing enabled, every record of a run in which
no record overflows a *non-empty* staging area (and none exactly fills
it, and each overflowing record fits its individually acquired buffer)
lands in exactly one returned buffer: the concatenation of all returned
buffers equals the concatenation of all formatted records.  Records that
do overflow while bytes are staged are discarded by the overflow path —
see the counterexample. -/
theorem c1_amended (cfg : WPConfig) (reqs : List WriteRequest)
    (h2 : 1 < cfg.coalesce_size)
    (hgood : goodRunAux cfg 0 0 reqs = true) :
    ((runOutputs cfg reqs).map Buffer.content).flatten
      = (reqs.map fmtMsg).flatten := by
  have hinit : (initWPState cfg).staging.length = cfg.staging_buffer_size := by
    simp [initWPState]
  obtain ⟨hq, hlen, hoff⟩ :=
    runPrepare_flatten cfg h2 reqs (initWPState cfg) hinit
      (by simp [initWPState]) (by simpa [initWPState] using hgood)
  unfold runOutputs
  by_cases h0 : (runPrepare cfg (initWPState cfg) reqs).1.staging_offset = 0
  · rw [flushStaged_zero _ h0]
    simp only [Option.toList_none, List.append_nil]
    rw [h0] at hq
    simpa [initWPState] using hq
  · rw [flushStaged_pos _ h0]
    simp only [Option.toList_some, List.map_append, List.flatten_append,
      List.map_cons, List.map_nil, List.flatten_cons, List.flatten_nil,
      List.append_nil, stagedBuffer]
    rw [hq]
    simp [initWPState]

theorem c1_amended_witness :
    (1 : Nat) < 2 ∧
    goodRunAux { coalesce_size := 2, staging_buffer_size := 64 } 0 0
      [smallReq, smallReq] = true ∧
    ((runOutputs { coalesce_size := 2, staging_buffer_size := 64 }
        [smallReq, smallReq]).map Buffer.content).flatten
      = ([smallReq, smallReq].map fmtMsg).flatten :=
  ⟨by decide, by decide,
    c1_amended { coalesce_size := 2, staging_buffer_size := 64 }
      [smallReq, smallReq] (by decide) (by decide)⟩

/-- C1 counterexample: with a 32-byte staging area, a 23-byte record is
staged and a 43-byte record then overflows the remaining area.  The code
flushes the staged 23 bytes and returns only that buffer, discarding the
second record's individually formatted buffer: every emitted buffer of
the whole run is shorter than the second record's 43 formatted bytes, so
those bytes appear in no returned buffer. -/
theorem c1_counterexample :
    ((runOutputs { coalesce_size := 8, staging_buffer_size := 32 }
        [smallReq, midReq]).map Buffer.content)
      = ["[] [INFO] [Thread: ]: \n".data] ∧
    (fmtMsg midReq).length = 43 ∧
    ∀ b ∈ runOutputs { coalesce_size := 8, staging_buffer_size := 32 }
        [smallReq, midReq], b.content.length < (fmtMsg midReq).length := by
  refine ⟨by decide, by decide, by decide⟩

/-! ## Claim C9 -/

/-- C9: for both queue variants, `pop` (run at its wait condition, i.e.
after the condition variable released it) returns absent exactly when the
queue is empty and shut down; otherwise it returns the next record in
FIFO order and removes it.  For the bounded ring the FIFO content is the
`ringList` abstraction, and the hypotheses `buffer.length = capacity`,
`head < capacity` are the ring-shape invariants the constructor
establishes and both operations preserve. -/
theorem c9_pop_contract (α : Type) [Inhabited α]
    (s : StdQueueState α) (t : FixedQueueState α)
    (hs : stdWaitCond s)
    (hbuf : t.buffer.length = t.capacity) (hhead : t.head < t.capacity)
    (ht : fixedPopWaitCond t) :
    ((stdPop s).1 = none ↔ (s.queue = [] ∧ s.stop = true)) ∧
    (stdPop s).1 = s.queue.head? ∧
    (stdPop s).2.queue = s.queue.tail ∧
    ((fixedPop t).1 = none ↔ (ringList t = [] ∧ t.stop = true)) ∧
    (fixedPop t).1 = (ringList t).head? ∧
    ringList (fixedPop t).2 = (ringList t).tail := by
  have hstd : ((stdPop s).1 = none ↔ (s.queue = [] ∧ s.stop = true)) ∧
      (stdPop s).1 = s.queue.head? ∧ (stdPop s).2.queue = s.queue.tail := by
    cases hq : s.queue with
    | nil =>
      have hstop : s.stop = true := by
        rcases hs with h | h
        · exact absurd hq h
        · exact h
      refine ⟨?_, ?_, ?_⟩ <;> simp [stdPop, hq, hstop]
    | cons x xs =>
      refine ⟨?_, ?_, ?_⟩ <;> simp [stdPop, hq]
  by_cases hc : t.count = 0
  · have hstop : t.stop = true := by
      rcases ht with h | h
      · omega
      · exact h
    have hringnil : ringList t = [] := by simp [ringList, hc]
    refine ⟨hstd.1, hstd.2.1, hstd.2.2, ?_, ?_, ?_⟩ <;>
      simp [fixedPop, hc, hringnil, hstop]
  · have hcap : 0 < t.capacity := by omega
    obtain ⟨k, hk⟩ : ∃ k, t.count = k + 1 := ⟨t.count - 1, by omega⟩
    have h1 : (fixedPop t).1 = some (t.buffer.getD t.head default) := by
      simp [fixedPop, hc]
    have h2 : (fixedPop t).2 =
        { t with head := (t.head + 1) % t.capacity, count := t.count - 1 } := by
      simp [fixedPop, hc]
    have hring : ringList t =
        t.buffer.getD t.head default :: ringList (fixedPop t).2 := by
      rw [h2]
      unfold ringList
      dsimp only
      rw [hk]
      rw [List.range_succ_eq_map]
      simp only [List.map_cons, List.map_map, Nat.add_sub_cancel]
      congr 1
      · rw [Nat.add_zero, Nat.mod_eq_of_lt hhead]
      · apply List.map_congr_left
        intro i _
        show t.buffer.getD ((t.head + Nat.succ i) % t.capacity) default =
          t.buffer.getD (((t.head + 1) % t.capacity + i) % t.capacity) default
        congr 1
        rw [Nat.mod_add_mod]
        congr 1
        omega
    refine ⟨hstd.1, hstd.2.1, hstd.2.2, ?_, ?_, ?_⟩
    · rw [h1, hring]
      simp
    · rw [h1, hring]
      rfl
    · rw [hring]
      rfl

theorem c9_witness :
    stdWaitCond (⟨[5, 6], false⟩ : StdQueueState Nat) ∧
    (⟨[9, 8], 1, 1, 2, 2, false⟩ : FixedQueueState Nat).buffer.length =
      (⟨[9, 8], 1, 1, 2, 2, false⟩ : FixedQueueState Nat).capacity ∧
    (⟨[9, 8], 1, 1, 2, 2, false⟩ : FixedQueueState Nat).head <
      (⟨[9, 8], 1, 1, 2, 2, false⟩ : FixedQueueState Nat).capacity ∧
    fixedPopWaitCond (⟨[9, 8], 1, 1, 2, 2, false⟩ : FixedQueueState Nat) ∧
    (((stdPop (⟨[5, 6], false⟩ : StdQueueState Nat)).1 = none ↔
        ((⟨[5, 6], false⟩ : StdQueueState Nat).queue = [] ∧
          (⟨[5, 6], false⟩ : StdQueueState Nat).stop = true)) ∧
      (stdPop (⟨[5, 6], false⟩ : StdQueueState Nat)).1 =
        (⟨[5, 6], false⟩ : StdQueueState Nat).queue.head? ∧
      (stdPop (⟨[5, 6], false⟩ : StdQueueState Nat)).2.queue =
        (⟨[5, 6], false⟩ : StdQueueState Nat).queue.tail ∧
      ((fixedPop (⟨[9, 8], 1, 1, 2, 2, false⟩ : FixedQueueState Nat)).1 = none ↔
        (ringList (⟨[9, 8], 1, 1, 2, 2, false⟩ : FixedQueueState Nat) = [] ∧
          (⟨[9, 8], 1, 1, 2, 2, false⟩ : FixedQueueState Nat).stop = true)) ∧
      (fixedPop (⟨[9, 8], 1, 1, 2, 2, false⟩ : FixedQueueState Nat)).1 =
        (ringList (⟨[9, 8], 1, 1, 2, 2, false⟩ : FixedQueueState Nat)).head? ∧
      ringList (fixedPop (⟨[9, 8], 1, 1, 2, 2, false⟩ : FixedQueueState Nat)).2 =
        (ringList (⟨[9, 8], 1, 1, 2, 2, false⟩ : FixedQueueState Nat)).tail) :=
  ⟨by decide, by decide, by decide, by decide,
    c9_pop_contract Nat ⟨[5, 6], false⟩ ⟨[9, 8], 1, 1, 2, 2, false⟩
      (by decide) (by decide) (by decide) (by decide)⟩

/-! ## FileRotater path-splitting facts (shared by C6 and C10) -/

/-- The split never loses characters: base ++ extension is the original
filename. -/
theorem extractBaseAndExtension_append (fn : List Char) :
    (extractBaseAndExtension fn).1 ++ (extractBaseAndExtension fn).2 = fn := by
  unfold extractBaseAndExtension
  cases h : findLastOf '.' fn with
  | none => simp
  | some d =>
    by_cases hd : 0 < d
    · simp [hd, List.take_append_drop]
    · simp [hd]

theorem mkFileRotater_name (fn : List Char) (m : Nat) :
    (mkFileRotater fn m).base_name ++ (mkFileRotater fn m).extension = fn := by
  unfold mkFileRotater
  cases h : extractBaseAndExtension fn with
  | mk b e =>
    have := extractBaseAndExtension_append fn
    rw [h] at this
    simpa using this

theorem findLastOf_eq_none (c : Char) (l : List Char)
    (h : findLastOf c l = none) : c ∉ l := by
  induction l with
  | nil => simp
  | cons x xs ih =>
    unfold findLastOf at h
    cases hx : findLastOf c xs with
    | some j => rw [hx] at h; cases h
    | none =>
      rw [hx] at h
      by_cases hxc : x = c
      · rw [if_pos hxc] at h; cases h
      · simp only [List.mem_cons, not_or]
        exact ⟨fun hc => hxc hc.symm, ih hx⟩

theorem findLastOf_eq_some (c : Char) (l : List Char) (d : Nat)
    (h : findLastOf c l = some d) :
    d < l.length ∧ l[d]? = some c ∧ ∀ j, d < j → l[j]? ≠ some c := by
  induction l generalizing d with
  | nil => cases h
  | cons x xs ih =>
    unfold findLastOf at h
    cases hx : findLastOf c xs with
    | some j =>
      rw [hx] at h
      have hd : d = j + 1 := by cases h; rfl
      subst hd
      obtain ⟨hlen, hget, hmax⟩ := ih j hx
      refine ⟨by simpa using hlen, by simpa using hget, ?_⟩
      intro j' hj'
      obtain ⟨k, rfl⟩ : ∃ k, j' = k + 1 := ⟨j' - 1, by omega⟩
      simpa using hmax k (by omega)
    | none =>
      rw [hx] at h
      by_cases hxc : x = c
      · rw [if_pos hxc] at h
        have hd : d = 0 := by cases h; rfl
        subst hd
        refine ⟨by simp, by simp [hxc], ?_⟩
        intro j hj
        obtain ⟨k, rfl⟩ : ∃ k, j = k + 1 := ⟨j - 1, by omega⟩
        simp only [List.getElem?_cons_succ]
        intro hk
        exact findLastOf_eq_none c xs hx (List.getElem?_mem hk)
      · rw [if_neg hxc] at h; cases h

/-! ## Claim C6 -/

/-- C6 counterexample: for the path `dir.d/file` the constructor splits
at the last dot even though it lies in a directory component, producing
the extension `.d/file`, which contains the path separator; the spec's
extension (longest suffix starting with `'.'` and free of separators) is
empty for this path, and the two disagree. -/
theorem c6_counterexample :
    extractBaseAndExtension "dir.d/file".data = ("dir".data, ".d/file".data) ∧
    specExtension "dir.d/file".data = [] ∧
    '/' ∈ ".d/file".data ∧
    ".d/file".data ≠ ([] : List Char) := by
  refine ⟨by decide, by decide, by decide, by decide⟩

/-- C6 amended: the constructor splits at the *last* `'.'` of the whole
path, provided that dot is not the first character (otherwise the
extension is empty).  Hence base ++ extension reconstitutes the path, a
non-empty extension starts with `'.'` and contains no further dot —
but it may contain path separators; the extension is empty exactly when
no dot occurs at a positive index.  A leading-dot name such as
`.hidden.log` still splits at its last dot into `.hidden` / `.log`. -/
theorem c6_amended (fn : List Char) :
    (extractBaseAndExtension fn).1 ++ (extractBaseAndExtension fn).2 = fn ∧
    ((extractBaseAndExtension fn).2 ≠ [] →
      (extractBaseAndExtension fn).2.head? = some '.' ∧
      ∀ j, 0 < j → (extractBaseAndExtension fn).2[j]? ≠ some '.') ∧
    ((extractBaseAndExtension fn).2 = [] ↔
      ∀ j, 0 < j → fn[j]? ≠ some '.') ∧
    extractBaseAndExtension ".hidden.log".data = (".hidden".data, ".log".data) := by
  refine ⟨extractBaseAndExtension_append fn, ?_, ?_⟩
  all_goals unfold extractBaseAndExtension
  · cases h : findLastOf '.' fn with
    | none =>
      intro hne
      exact absurd rfl hne
    | some d =>
      obtain ⟨hlen, hget, hmax⟩ := findLastOf_eq_some '.' fn d h
      by_cases hd : 0 < d
      · simp only [if_pos hd]
        intro _
        constructor
        · rw [List.head?_eq_getElem?, List.getElem?_drop, Nat.add_zero]
          exact hget
        · intro j hj
          rw [List.getElem?_drop]
          exact hmax (d + j) (by omega)
      · simp only [hd, if_neg]
        intro hne
        exact absurd rfl hne
  · refine ⟨?_, by decide⟩
    cases h : findLastOf '.' fn with
    | none =>
      constructor
      · intro _ j _
        have hmem := findLastOf_eq_none '.' fn h
        intro hj
        exact hmem (List.getElem?_mem hj)
      · intro _; rfl
    | some d =>
      obtain ⟨hlen, hget, hmax⟩ := findLastOf_eq_some '.' fn d h
      by_cases hd : 0 < d
      · simp only [if_pos hd]
        constructor
        · intro hdrop
          have hL : fn.length - d = 0 := by
            simpa using congrArg List.length hdrop
          omega
        · intro hall
          exact absurd hget (hall d hd)
      · simp only [hd, if_neg]
        have hd0 : d = 0 := by omega
        subst hd0
        constructor
        · intro _ j hj
          exact hmax j hj
        · intro _; rfl

theorem c6_amended_witness :
    (extractBaseAndExtension "a.b/c".data).1 ++
        (extractBaseAndExtension "a.b/c".data).2 = "a.b/c".data ∧
    ((extractBaseAndExtension "a.b/c".data).2 ≠ [] →
      (extractBaseAndExtension "a.b/c".data).2.head? = some '.' ∧
      ∀ j, 0 < j → (extractBaseAndExtension "a.b/c".data).2[j]? ≠ some '.') ∧
    ((extractBaseAndExtension "a.b/c".data).2 = [] ↔
      ∀ j, 0 < j → "a.b/c".data[j]? ≠ some '.') ∧
    extractBaseAndExtension ".hidden.log".data = (".hidden".data, ".log".data) :=
  c6_amended "a.b/c".data

/-! ## Claim C4 -/

/-- C4 counterexample: a record with a 1002-byte rendered thread id and
empty payload formats to 1025 bytes, but the individual path sizes the
buffer from `payload + 256 = 256` bytes and acquires the 1024-byte small
class: `fmt::format_to_n` truncates the write yet returns the untruncated
count, which the code stores as the buffer's `size` — so `size = 1025`
exceeds `capacity = 1024`, breaking `0 ≤ size ≤ capacity`. -/
theorem c4_counterexample :
    ((prepareIndividualWrite hugeTidReq).buffer.map Buffer.size) = some 1025 ∧
    ((prepareIndividualWrite hugeTidReq).buffer.map Buffer.capacity) = some 1024 ∧
    (1024 : Nat) < 1025 := by
  have hlen : (fmtMsg hugeTidReq).length = 1025 := by
    rw [fmtMsg_length]
    have h1 : hugeTidReq.timestamp.length = 0 := rfl
    have h2 : (sevLvlToStr hugeTidReq.level).length = 4 := rfl
    have h3 : hugeTidReq.threadId.length = 1002 := by
      show (List.replicate 1002 't').length = 1002
      rw [List.length_replicate]
    have h4 : hugeTidReq.data.length = 0 := rfl
    omega
  have hcap : acquireCapacity (hugeTidReq.data.length + 256) = 1024 := by
    have h4 : hugeTidReq.data.length = 0 := rfl
    rw [h4]
    decide
  refine ⟨?_, ?_, by decide⟩
  · unfold prepareIndividualWrite
    dsimp only [Option.map]
    rw [hlen]
  · unfold prepareIndividualWrite
    dsimp only [Option.map]
    rw [hcap]

/-- C4 amended: the individual path always sets the returned buffer's
`size` to the exact untruncated formatted byte count (no NUL counted),
and its capacity is the size-class capacity for `payload + 256` bytes;
thus `size ≤ capacity` holds exactly when the formatted text fits the
acquired buffer, and when the text fits strictly the buffer's bytes are
the full formatted record. -/
theorem c4_amended (r : WriteRequest) (b : Buffer)
    (h : (prepareIndividualWrite r).buffer = some b) :
    b.size = (fmtMsg r).length ∧
    b.capacity = acquireCapacity (r.data.length + 256) ∧
    (b.size ≤ b.capacity ↔
      (fmtMsg r).length ≤ acquireCapacity (r.data.length + 256)) ∧
    ((fmtMsg r).length < acquireCapacity (r.data.length + 256) →
      b.content = fmtMsg r) := by
  have hb : b =
      { content :=
          if (fmtMsg r).length < acquireCapacity (r.data.length + 256)
          then fmtMsg r
          else (fmtMsg r).take (acquireCapacity (r.data.length + 256) - 1)
        size := (fmtMsg r).length
        capacity := acquireCapacity (r.data.length + 256) } := by
    have := h
    unfold prepareIndividualWrite at this
    simpa using this.symm
  subst hb
  refine ⟨rfl, rfl, Iff.rfl, ?_⟩
  intro hfit
  simp [if_pos hfit]

theorem c4_amended_witness :
    (prepareIndividualWrite smallReq).buffer =
      some { content := "[] [INFO] [Thread: ]: \n".data, size := 23, capacity := 1024 } ∧
    (({ content := "[] [INFO] [Thread: ]: \n".data, size := 23, capacity := 1024 } : Buffer).size
        = (fmtMsg smallReq).length ∧
      ({ content := "[] [INFO] [Thread: ]: \n".data, size := 23, capacity := 1024 } : Buffer).capacity
        = acquireCapacity (smallReq.data.length + 256) ∧
      (({ content := "[] [INFO] [Thread: ]: \n".data, size := 23, capacity := 1024 } : Buffer).size ≤
          ({ content := "[] [INFO] [Thread: ]: \n".data, size := 23, capacity := 1024 } : Buffer).capacity ↔
        (fmtMsg smallReq).length ≤ acquireCapacity (smallReq.data.length + 256)) ∧
      ((fmtMsg smallReq).length < acquireCapacity (smallReq.data.length + 256) →
        ({ content := "[] [INFO] [Thread: ]: \n".data, size := 23, capacity := 1024 } : Buffer).content
          = fmtMsg smallReq)) :=
  ⟨by decide,
    c4_amended smallReq
      { content := "[] [INFO] [Thread: ]: \n".data, size := 23, capacity := 1024 }
      (by decide)⟩

/-! ## Claim C10 -/

/-- C10: `getCurrentFilename` caches a process-wide (function-local
static) string.  The first call initialises it to that instance's
`base + extension` (= its construction filename); any later instance
constructed from a different filename still gets the first instance's
filename back — not its own base and extension. -/
theorem c10_static_current_filename (fn1 fn2 : List Char) (m1 m2 : Nat)
    (hne : fn1 ≠ fn2) :
    (getCurrentFilename none (mkFileRotater fn1 m1)).1 = fn1 ∧
    (getCurrentFilename (getCurrentFilename none (mkFileRotater fn1 m1)).2
      (mkFileRotater fn2 m2)).1 = fn1 ∧
    (getCurrentFilename (getCurrentFilename none (mkFileRotater fn1 m1)).2
        (mkFileRotater fn2 m2)).1 ≠
      (mkFileRotater fn2 m2).base_name ++ (mkFileRotater fn2 m2).extension := by
  have h1 : (getCurrentFilename none (mkFileRotater fn1 m1)).1 = fn1 := by
    unfold getCurrentFilename
    simpa using mkFileRotater_name fn1 m1
  have h2 : (getCurrentFilename none (mkFileRotater fn1 m1)).2 = some fn1 := by
    unfold getCurrentFilename
    simpa using mkFileRotater_name fn1 m1
  refine ⟨h1, ?_, ?_⟩
  · rw [h2]; rfl
  · rw [h2]
    show fn1 ≠ _
    rw [mkFileRotater_name fn2 m2]
    exact hne

theorem c10_witness :
    "a.log".data ≠ "b.log".data ∧
    ((getCurrentFilename none (mkFileRotater "a.log".data 10)).1 = "a.log".data ∧
      (getCurrentFilename (getCurrentFilename none (mkFileRotater "a.log".data 10)).2
        (mkFileRotater "b.log".data 20)).1 = "a.log".data ∧
      (getCurrentFilename (getCurrentFilename none (mkFileRotater "a.log".data 10)).2
          (mkFileRotater "b.log".data 20)).1 ≠
        (mkFileRotater "b.log".data 20).base_name ++
          (mkFileRotater "b.log".data 20).extension) :=
  ⟨by decide,
    c10_static_current_filename "a.log".data "b.log".data 10 20 (by decide)⟩

end MrLogger
